import Mathlib

/-!
# Verification of the QualityJobs subscription worker

Shallow embedding of `src/worker/index.js`, a Cloudflare Worker that maintains
an email subscription list in a key-value store (`env.SUBSCRIBERS`) and exposes
three handlers: `handleSubscribe`, `handleUnsubscribe`, `handleListSubscribers`.

Modelling conventions:
* Strings are Lean `String`s; the JS-specific character predicates
  (`\s` in the email regex, the set trimmed by `String.prototype.trim`) are
  embedded explicitly (`jsIsSpace`), since in JS they denote the same set
  (WhiteSpace ∪ LineTerminator).  `toLowerCase` is modelled on the ASCII
  range, which covers every character the validator can accept besides
  non-ASCII letters.
* The KV store is a finite map from key to stored string value, represented
  as an association list in `list()` order with pairwise distinct keys.
  The handlers only ever distinguish three classes of stored strings:
  the empty string (falsy, so `if (data)` skips it), strings on which
  `JSON.parse` throws, and strings parsing to a JSON value.  `StoredVal`
  records exactly this classification; `StoredVal.json j` stands for a
  string whose `JSON.parse` result is `j` (for the flat string-valued
  records the worker writes, `JSON.parse (JSON.stringify r) = r`, which is
  why `handleSubscribe` can store the parsed form directly).
* Exceptions that escape a handler (there is no try/catch around the scans)
  are modelled with `Except ScanErr`: `.error` means the request aborts with
  an unhandled exception instead of producing one of the coded responses.
* Sources of nondeterminism (`crypto.randomUUID()`, `new Date()`) and the
  request environment (parsed JSON body, query parameters, `env.API_SECRET`)
  are passed as explicit arguments.
-/

/-- The set matched by `\s` in a JS regex, which is also exactly the set of
characters removed by `String.prototype.trim`: WhiteSpace ∪ LineTerminator. -/
def jsIsSpace (c : Char) : Bool :=
  c == ' ' || c == '\t' || c == '\n' || c == '\r' ||
  c.toNat == 0x0b || c.toNat == 0x0c || c.toNat == 0xa0 || c.toNat == 0x1680 ||
  (0x2000 ≤ c.toNat && c.toNat ≤ 0x200a) ||
  c.toNat == 0x2028 || c.toNat == 0x2029 || c.toNat == 0x202f ||
  c.toNat == 0x205f || c.toNat == 0x3000 || c.toNat == 0xfeff

/-- `String.prototype.trim`: drop leading and trailing JS whitespace. -/
def jsTrim (s : String) : String :=
  String.mk (((s.data.dropWhile jsIsSpace).reverse.dropWhile jsIsSpace).reverse)

/-- `String.prototype.toLowerCase` restricted to its ASCII action. -/
def jsToLowerChar (c : Char) : Char :=
  if 0x41 ≤ c.toNat ∧ c.toNat ≤ 0x5a then Char.ofNat (c.toNat + 32) else c

/-- `String.prototype.toLowerCase` (ASCII range). -/
def jsToLower (s : String) : String := String.mk (s.data.map jsToLowerChar)

/-- A character admissible in the regex character class `[^\s@]`. -/
def emailChar (c : Char) : Bool := !(jsIsSpace c) && c != '@'

/-- The part after the `@` must split as `[^\s@]+ "." [^\s@]+`: since `.` is
itself in `[^\s@]`, this holds iff some `.` occurs at an interior position. -/
def dotSplitOk (domainPart : List Char) : Bool :=
  ((domainPart.drop 1).dropLast).contains '.'

/-- `isValidEmail` from the worker: `/^[^\s@]+@[^\s@]+\.[^\s@]+$/.test(email)`.
The anchored regex matches iff the string splits as `local ++ "@" ++ domain`
with `local` a nonempty `@`-free whitespace-free block and `domain` a nonempty
`@`-free whitespace-free block containing a dot at an interior position. -/
def isValidEmail (email : String) : Bool :=
  let cs := email.data
  let localPart := cs.takeWhile (fun c => c != '@')
  match cs.dropWhile (fun c => c != '@') with
  | [] => false
  | _ :: domainPart =>
    !localPart.isEmpty && localPart.all emailChar &&
    !domainPart.isEmpty && domainPart.all emailChar && dotSplitOk domainPart

/-- JSON values, as produced by a successful `JSON.parse`.  Numbers keep their
source text: the worker never computes with them. -/
inductive Json where
  | null
  | bool (b : Bool)
  | num (lit : String)
  | str (s : String)
  | arr (elems : List Json)
  | obj (fields : List (String × Json))

/-- Property lookup on a JS object literal: the last binding of a repeated
key wins. -/
def lookupLast (fields : List (String × Json)) (name : String) : Option Json :=
  fields.foldl (fun acc f => if f.1 == name then some f.2 else acc) none

/-- `parsed.name` for a non-null parsed value: a field of an object, and
`undefined` (here `none`) on any non-object or a missing field.  Access on
`null` throws and is handled separately by the callers. -/
def objGet (j : Json) (name : String) : Option Json :=
  match j with
  | .obj fields => lookupLast fields name
  | _ => none

/-- JS strict equality `v === s` between a possibly-undefined property value
and a string: true exactly for an equal JS string. -/
def jsEqStr (v : Option Json) (s : String) : Bool :=
  match v with
  | some (.str t) => t == s
  | _ => false

/-- A stored string value, classified by the only three distinctions the
worker makes: `""` (falsy), a string `JSON.parse` rejects, and a string
parsing to `j`. -/
inductive StoredVal where
  | empty
  | malformed (raw : String)
  | json (j : Json)

/-- JS truthiness of a stored value (`if (existing)`, `if (data)`):
only `""` among stored strings is falsy. -/
def truthy : StoredVal → Bool
  | .empty => false
  | _ => true

/-- The `env.SUBSCRIBERS` KV namespace: bindings in `list()` order.
Keys are pairwise distinct in every reachable store. -/
abbrev Store := List (String × StoredVal)

/-- `env.SUBSCRIBERS.get(k)`: `null` (here `none`) when the key is absent. -/
def kvGet (store : Store) (k : String) : Option StoredVal :=
  (store.find? (fun e => e.1 == k)).map (fun e => e.2)

/-- `env.SUBSCRIBERS.put(k, v)`: overwrite the binding of `k`, or append. -/
def kvPut (k : String) (v : StoredVal) : Store → Store
  | [] => [(k, v)]
  | e :: rest => if e.1 == k then (k, v) :: rest else e :: kvPut k v rest

/-- An exception escaping a scan: `JSON.parse` threw on a stored value, or
property access threw because the value parsed to `null`. -/
inductive ScanErr where
  | parseError
  | nullAccess
deriving DecidableEq

/-- An HTTP response: status, headers in construction order, body. -/
structure HttpResponse where
  status : Nat
  headers : List (String × String)
  body : String
deriving DecidableEq

/-- `CORS_HEADERS` from the worker. -/
def CORS_HEADERS : List (String × String) :=
  [("Access-Control-Allow-Origin", "*"),
   ("Access-Control-Allow-Methods", "GET, POST, OPTIONS"),
   ("Access-Control-Allow-Headers", "Content-Type")]

/-- `{'Content-Type': 'application/json'}`. -/
def jsonCT : List (String × String) := [("Content-Type", "application/json")]

/-- `{'Content-Type': 'text/html'}`. -/
def htmlCT : List (String × String) := [("Content-Type", "text/html")]

/-- The `htmlPage(title, message)` template of the worker. -/
def htmlPage (title message : String) : String :=
  "<!DOCTYPE html>\n<html>\n<head>\n  <meta charset=\"UTF-8\">\n" ++
  "  <meta name=\"viewport\" content=\"width=device-width, initial-scale=1.0\">\n" ++
  "  <title>" ++ title ++ " - Quality Jobs</title>\n  <style>\n" ++
  "    body \x7b font-family: -apple-system, BlinkMacSystemFont, sans-serif; display: flex; justify-content: center; align-items: center; min-height: 100vh; margin: 0; background: #f5f5f5; \x7d\n" ++
  "    .card \x7b background: white; padding: 40px; border-radius: 8px; box-shadow: 0 2px 10px rgba(0,0,0,0.1); text-align: center; max-width: 400px; \x7d\n" ++
  "    h1 \x7b margin: 0 0 16px; color: #333; \x7d\n" ++
  "    p \x7b color: #666; margin: 0; \x7d\n" ++
  "    a \x7b color: #0066cc; \x7d\n" ++
  "  </style>\n</head>\n<body>\n  <div class=\"card\">\n    <h1>" ++ title ++
  "</h1>\n    <p>" ++ message ++ "</p>\n" ++
  "    <p style=\"margin-top: 20px;\"><a href=\"https://dankopenko.github.io/QualityJobs/\">Back to Quality Jobs</a></p>\n" ++
  "  </div>\n</body>\n</html>"

/-- 400 `{"error":"Invalid email"}` with JSON + CORS headers. -/
def respInvalidEmail : HttpResponse :=
  ⟨400, jsonCT ++ CORS_HEADERS, "\x7b\"error\":\"Invalid email\"\x7d"⟩

/-- 200 `{"message":"Already subscribed"}` with JSON + CORS headers. -/
def respAlready : HttpResponse :=
  ⟨200, jsonCT ++ CORS_HEADERS, "\x7b\"message\":\"Already subscribed\"\x7d"⟩

/-- 200 `{"message":"Subscribed successfully"}` with JSON + CORS headers. -/
def respSubscribed : HttpResponse :=
  ⟨200, jsonCT ++ CORS_HEADERS, "\x7b\"message\":\"Subscribed successfully\"\x7d"⟩

/-- 500 `{"error":"Server error"}` with JSON + CORS headers. -/
def respServerError : HttpResponse :=
  ⟨500, jsonCT ++ CORS_HEADERS, "\x7b\"error\":\"Server error\"\x7d"⟩

/-- 400 HTML "Invalid unsubscribe link." — note: HTML content type only,
no CORS headers. -/
def respMissingToken : HttpResponse :=
  ⟨400, htmlCT, htmlPage "Error" "Invalid unsubscribe link."⟩

/-- 200 HTML unsubscribe confirmation — HTML content type only, no CORS. -/
def respUnsubscribed : HttpResponse :=
  ⟨200, htmlCT, htmlPage "Unsubscribed" "You have been unsubscribed from job alerts."⟩

/-- 404 HTML "Subscription not found or already unsubscribed." — HTML content
type only, no CORS. -/
def respNotFoundUnsub : HttpResponse :=
  ⟨404, htmlCT, htmlPage "Not Found" "Subscription not found or already unsubscribed."⟩

/-- 401 `{"error":"Unauthorized"}` — JSON content type only, no CORS. -/
def respUnauthorized : HttpResponse :=
  ⟨401, jsonCT, "\x7b\"error\":\"Unauthorized\"\x7d"⟩

/-- The record `{token, subscribed_at}` written by `handleSubscribe`
(its `JSON.stringify` parses back to exactly this value). -/
def mkRecord (token subscribedAt : String) : Json :=
  .obj [("token", .str token), ("subscribed_at", .str subscribedAt)]

/-- `handleSubscribe`.  `body` is the result of `await request.json()`
projected to its `email` field: `.error` when `request.json()` throws (the
surrounding try/catch turns any throw into the 500 response), `.ok none`
when the field is absent, `.ok (some s)` for a string field.  `freshToken`
stands for `crypto.randomUUID()` and `now` for `new Date().toISOString()`. -/
def handleSubscribe (body : Except Unit (Option String)) (freshToken now : String)
    (store : Store) : HttpResponse × Store :=
  match body with
  | .error _ => (respServerError, store)
  | .ok none => (respInvalidEmail, store)
  | .ok (some email) =>
    if email == "" || !(isValidEmail email) then (respInvalidEmail, store)
    else
      let normalizedEmail := jsTrim (jsToLower email)
      if (kvGet store normalizedEmail).any truthy then (respAlready, store)
      else (respSubscribed,
            kvPut normalizedEmail (.json (mkRecord freshToken now)) store)

/-- `parsed.token === token` for a successfully parsed non-null value. -/
def tokenFieldEq (j : Json) (tok : String) : Bool := jsEqStr (objGet j "token") tok

/-- The scan loop of `handleUnsubscribe`: walk the bindings in `list()`
order; skip falsy values; abort if `JSON.parse` throws or the value parsed
to `null` (`parsed.token` throws); on the first value whose `token` field
strictly equals `tok`, delete that binding and stop.  Returns whether a
match was found together with the store left behind. -/
def unsubScan (tok : String) : Store → Except ScanErr (Bool × Store)
  | [] => .ok (false, [])
  | (k, v) :: rest =>
    match v with
    | .empty => (unsubScan tok rest).map (fun r => (r.1, (k, StoredVal.empty) :: r.2))
    | .malformed _ => .error .parseError
    | .json .null => .error .nullAccess
    | .json j =>
      if tokenFieldEq j tok then .ok (true, rest)
      else (unsubScan tok rest).map (fun r => (r.1, (k, StoredVal.json j) :: r.2))

/-- `handleUnsubscribe`.  `tokenParam` is `url.searchParams.get('token')`
(`none` when absent); `!token` is also true for the empty string. -/
def handleUnsubscribe (tokenParam : Option String) (store : Store) :
    Except ScanErr (HttpResponse × Store) :=
  match tokenParam with
  | none => .ok (respMissingToken, store)
  | some tok =>
    if tok == "" then .ok (respMissingToken, store)
    else (unsubScan tok store).map (fun r =>
      (if r.1 then respUnsubscribed else respNotFoundUnsub, r.2))

/-- One element pushed onto `subscribers` (a field is `none` when the
corresponding property access yielded `undefined`). -/
structure SubEntry where
  email : String
  token : Option Json
  subscribed_at : Option Json

/-- The scan loop of `handleListSubscribers`: skip falsy values, abort on a
parse failure or a `null` record, otherwise push
`{email: key, token: parsed.token, subscribed_at: parsed.subscribed_at}`. -/
def listScan : Store → Except ScanErr (List SubEntry)
  | [] => .ok []
  | (k, v) :: rest =>
    match v with
    | .empty => listScan rest
    | .malformed _ => .error .parseError
    | .json .null => .error .nullAccess
    | .json j =>
      (listScan rest).map (fun es => ⟨k, objGet j "token", objGet j "subscribed_at"⟩ :: es)

/-- Escape one character as inside a `JSON.stringify`d string literal. -/
def escapeJsonChar (c : Char) : String :=
  if c == '"' then "\\\"" else if c == '\\' then "\\\\"
  else if c == '\n' then "\\n" else if c == '\t' then "\\t"
  else if c == '\r' then "\\r" else String.singleton c

/-- Escape a string as inside a `JSON.stringify`d string literal. -/
def escapeJson (s : String) : String :=
  s.data.foldl (fun acc c => acc ++ escapeJsonChar c) ""

mutual

/-- `JSON.stringify` of a JSON value. -/
def jsonStringify : Json → String
  | .null => "null"
  | .bool true => "true"
  | .bool false => "false"
  | .num lit => lit
  | .str s => "\"" ++ escapeJson s ++ "\""
  | .arr xs => "[" ++ jsonStringifyList xs ++ "]"
  | .obj fs => "\x7b" ++ jsonStringifyFields fs ++ "\x7d"

/-- Serialize array elements, comma-separated. -/
def jsonStringifyList : List Json → String
  | [] => ""
  | [x] => jsonStringify x
  | x :: y :: xs => jsonStringify x ++ "," ++ jsonStringifyList (y :: xs)

/-- Serialize object fields, comma-separated. -/
def jsonStringifyFields : List (String × Json) → String
  | [] => ""
  | [f] => "\"" ++ escapeJson f.1 ++ "\":" ++ jsonStringify f.2
  | f :: g :: fs =>
    "\"" ++ escapeJson f.1 ++ "\":" ++ jsonStringify f.2 ++ "," ++
    jsonStringifyFields (g :: fs)

end

/-- The fields `JSON.stringify` serializes for one subscriber entry:
properties holding `undefined` are omitted. -/
def entryFields (e : SubEntry) : List (String × Json) :=
  [("email", Json.str e.email)] ++
  (match e.token with | some t => [("token", t)] | none => []) ++
  (match e.subscribed_at with | some t => [("subscribed_at", t)] | none => [])

/-- `JSON.stringify({ subscribers })`. -/
def stringifySubscribers (es : List SubEntry) : String :=
  "\x7b\"subscribers\":" ++
  jsonStringify (.arr (es.map (fun e => Json.obj (entryFields e)))) ++ "\x7d"

/-- The 200 response of an authorized `handleListSubscribers` —
JSON content type only, no CORS headers. -/
def respSubscribers (es : List SubEntry) : HttpResponse :=
  ⟨200, jsonCT, stringifySubscribers es⟩

/-- `handleListSubscribers`.  `keyParam` is `url.searchParams.get('key')`;
`key !== env.API_SECRET` compares strictly, so an absent parameter never
matches the configured string secret. -/
def handleListSubscribers (keyParam : Option String) (apiSecret : String)
    (store : Store) : Except ScanErr HttpResponse :=
  if keyParam == some apiSecret then (listScan store).map respSubscribers
  else .ok respUnauthorized

/-- The key under which `handleSubscribe` stores a given raw email:
`email.toLowerCase().trim()`. -/
def normalizeEmail (email : String) : String := jsTrim (jsToLower email)


/-- A stored value both scan loops can step over without throwing: either
falsy (skipped by `if (data)`) or parsing to a non-`null` JSON value. -/
def scannable : StoredVal → Bool
  | .empty => true
  | .malformed _ => false
  | .json .null => false
  | .json _ => true

/-- The stored values the unsubscribe scan recognizes as matching `tok`:
values parsing to JSON whose `token` field is the string `tok`. -/
def valMatches (tok : String) : StoredVal → Bool
  | .json j => tokenFieldEq j tok
  | _ => false

/-- A store populated solely by `handleSubscribe`: one binding per
`(key, token, subscribed_at)` triple. -/
def mkStore (entries : List (String × String × String)) : Store :=
  entries.map (fun e => (e.1, StoredVal.json (mkRecord e.2.1 e.2.2)))

/-- The listing entry produced from a binding written by `handleSubscribe`. -/
def mkEntry (e : String × String × String) : SubEntry :=
  ⟨e.1, some (.str e.2.1), some (.str e.2.2)⟩

/-- The names of the three CORS headers. -/
def corsNames : List String := CORS_HEADERS.map Prod.fst

/-- The CORS headers actually carried by a response. -/
def corsHeaderFields (r : HttpResponse) : List (String × String) :=
  r.headers.filter (fun h => corsNames.contains h.1)

/-! ## Helper lemmas about characters and validation -/

/-- The head surviving a `dropWhile` fails the predicate. -/
theorem dropWhile_head_false {α : Type} {p : α → Bool} :
    ∀ (l : List α) (x : α) (xs : List α), l.dropWhile p = x :: xs → p x = false := by
  intro l
  induction l with
  | nil => intro x xs h; simp [List.dropWhile] at h
  | cons a as ih =>
    intro x xs h
    rw [List.dropWhile_cons] at h
    cases hp : p a with
    | true => rw [hp] at h; simp at h; exact ih x xs h
    | false =>
      rw [hp] at h; simp at h
      rw [← h.1]; exact hp

/-- Characters in the class `[^\s@]` are not JS whitespace. -/
theorem nonspace_of_emailChar {c : Char} (h : emailChar c = true) :
    jsIsSpace c = false := by
  unfold emailChar at h
  rw [Bool.and_eq_true] at h
  simpa using h.1

/-- Unfolding equation for `isValidEmail` with the `let`s inlined. -/
theorem isValidEmail_eq (email : String) :
    isValidEmail email =
      (match email.data.dropWhile (fun c => c != '@') with
       | [] => false
       | _ :: domainPart =>
         !(email.data.takeWhile (fun c => c != '@')).isEmpty &&
         (email.data.takeWhile (fun c => c != '@')).all emailChar &&
         !domainPart.isEmpty && domainPart.all emailChar && dotSplitOk domainPart) := rfl

/-- Every character of an accepted email is non-whitespace. -/
theorem isValidEmail_all_nonspace {e : String} (h : isValidEmail e = true) :
    e.data.all (fun c => !(jsIsSpace c)) = true := by
  rw [isValidEmail_eq] at h
  cases hd : e.data.dropWhile (fun c => c != '@') with
  | nil => rw [hd] at h; simp at h
  | cons a dom =>
    rw [hd] at h
    simp only [] at h
    simp only [Bool.and_eq_true] at h
    obtain ⟨⟨⟨⟨_, hloc⟩, _⟩, hdom⟩, _⟩ := h
    have haeq : a = '@' := by
      have ha := dropWhile_head_false (p := fun c => c != '@') e.data a dom hd
      simpa using ha
    have hsplit : e.data = e.data.takeWhile (fun c => c != '@') ++ a :: dom := by
      conv_lhs => rw [← List.takeWhile_append_dropWhile (p := fun c => c != '@') (l := e.data)]
      rw [hd]
    rw [hsplit, List.all_append, List.all_cons, Bool.and_eq_true, Bool.and_eq_true]
    refine ⟨?_, ?_, ?_⟩
    · rw [List.all_eq_true] at hloc ⊢
      intro c hc
      simp [nonspace_of_emailChar (hloc c hc)]
    · rw [haeq]; decide
    · rw [List.all_eq_true] at hdom ⊢
      intro c hc
      simp [nonspace_of_emailChar (hdom c hc)]

/-- `dropWhile` is the identity on a list with no satisfying head. -/
theorem dropWhile_eq_self_of_all {p : Char → Bool} {l : List Char}
    (h : l.all (fun c => !(p c)) = true) : l.dropWhile p = l := by
  cases l with
  | nil => rfl
  | cons a as =>
    rw [List.all_cons, Bool.and_eq_true] at h
    rw [List.dropWhile_cons, if_neg]
    simp only [Bool.not_eq_true'] at h
    simp [h.1]

/-- `trim` is the identity on a string with no whitespace at all. -/
theorem jsTrim_eq_self {s : String} (h : s.data.all (fun c => !(jsIsSpace c)) = true) :
    jsTrim s = s := by
  unfold jsTrim
  rw [dropWhile_eq_self_of_all h]
  have h2 : s.data.reverse.all (fun c => !(jsIsSpace c)) = true := by
    rw [List.all_eq_true] at h ⊢
    intro c hc
    exact h c (List.mem_reverse.mp hc)
  rw [dropWhile_eq_self_of_all h2, List.reverse_reverse]

/-- ASCII lowercasing never turns a non-whitespace character into whitespace. -/
theorem jsIsSpace_toLowerChar {c : Char} (h : jsIsSpace c = false) :
    jsIsSpace (jsToLowerChar c) = false := by
  unfold jsToLowerChar
  by_cases hr : 0x41 ≤ c.toNat ∧ c.toNat ≤ 0x5a
  · rw [if_pos hr]
    obtain ⟨h1, h2⟩ := hr
    unfold jsIsSpace
    generalize c.toNat = n at h1 h2
    interval_cases n <;> decide
  · rwa [if_neg hr]

/-- Lowercasing an all-non-whitespace string yields an all-non-whitespace
string. -/
theorem jsToLower_all_nonspace {s : String}
    (h : s.data.all (fun c => !(jsIsSpace c)) = true) :
    (jsToLower s).data.all (fun c => !(jsIsSpace c)) = true := by
  unfold jsToLower
  rw [List.all_eq_true] at h ⊢
  intro c hc
  simp only [String.data] at hc
  rw [List.mem_map] at hc
  obtain ⟨a, ha, rfl⟩ := hc
  have := h a ha
  simp only [Bool.not_eq_true'] at this ⊢
  exact jsIsSpace_toLowerChar this

/-- A valid email is in particular nonempty. -/
theorem isValidEmail_beq_empty {e : String} (h : isValidEmail e = true) :
    (e == "") = false := by
  cases heq : e == "" with
  | false => rfl
  | true =>
    have he : e = "" := by simpa using heq
    rw [he] at h
    exact absurd h (by decide)

/-- `handleSubscribe` on a valid email reduces to the get/put core. -/
theorem handleSubscribe_valid (e freshToken now : String) (store : Store)
    (hv : isValidEmail e = true) :
    handleSubscribe (.ok (some e)) freshToken now store =
      if (kvGet store (normalizeEmail e)).any truthy then (respAlready, store)
      else (respSubscribed,
            kvPut (normalizeEmail e) (.json (mkRecord freshToken now)) store) := by
  simp only [handleSubscribe]
  rw [isValidEmail_beq_empty hv, hv]
  simp [normalizeEmail]

/-- Reading back the key just written. -/
theorem kvGet_kvPut_self (k : String) (v : StoredVal) :
    ∀ store : Store, kvGet (kvPut k v store) k = some v
  | [] => by simp [kvPut, kvGet, List.find?]
  | e :: rest => by
    unfold kvPut
    cases he : e.1 == k with
    | true => simp [kvGet, List.find?]
    | false =>
      rw [if_neg (by simp [he])]
      simp only [kvGet, List.find?_cons, he]
      exact kvGet_kvPut_self k v rest

/-- After any subscribe of a valid email, its normalized key holds a truthy
value. -/
theorem subscribe_key_truthy (e t n : String) (store : Store)
    (hv : isValidEmail e = true) :
    (kvGet ((handleSubscribe (.ok (some e)) t n store).2) (normalizeEmail e)).any
      truthy = true := by
  rw [handleSubscribe_valid e t n store hv]
  by_cases h : (kvGet store (normalizeEmail e)).any truthy = true
  · rw [if_pos h]; exact h
  · rw [if_neg h]
    show (kvGet (kvPut (normalizeEmail e) _ store) (normalizeEmail e)).any truthy = true
    rw [kvGet_kvPut_self]
    rfl

/-- Subscribing a valid email whose key holds a truthy value answers
"Already subscribed" and leaves the store untouched. -/
theorem subscribe_second_already (e t n : String) (store : Store)
    (hv : isValidEmail e = true)
    (h : (kvGet store (normalizeEmail e)).any truthy = true) :
    handleSubscribe (.ok (some e)) t n store = (respAlready, store) := by
  rw [handleSubscribe_valid e t n store hv, if_pos h]

/-- No binding for an absent key survives a key filter. -/
theorem filter_key_nil_of_not_mem (k : String) :
    ∀ store : Store, k ∉ store.map Prod.fst →
      store.filter (fun b => b.1 == k) = []
  | [], _ => rfl
  | e :: rest, h => by
    rw [List.map_cons, List.mem_cons] at h
    push_neg at h
    have h1 : (e.1 == k) = false := by
      simpa using fun hk => h.1 hk.symm
    rw [List.filter_cons, h1]
    exact filter_key_nil_of_not_mem k rest h.2

/-- `put` leaves exactly one binding for the written key. -/
theorem kvPut_filter_count (k : String) (v : StoredVal) :
    ∀ store : Store, (store.map Prod.fst).Nodup →
      ((kvPut k v store).filter (fun b => b.1 == k)).length = 1
  | [], _ => by simp [kvPut]
  | e :: rest, hnd => by
    rw [List.map_cons, List.nodup_cons] at hnd
    unfold kvPut
    cases he : e.1 == k with
    | true =>
      rw [if_pos (by simp [he])]
      have he' : e.1 = k := by simpa using he
      have hk : k ∉ rest.map Prod.fst := he' ▸ hnd.1
      rw [List.filter_cons]
      simp only [beq_self_eq_true, if_true, cond_true]
      rw [filter_key_nil_of_not_mem k rest hk]
      rfl
    | false =>
      rw [if_neg (by simp [he])]
      rw [List.filter_cons]
      simp only [he, cond_false]
      exact kvPut_filter_count k v rest hnd.2

/-- A present key has exactly one binding in a store with distinct keys. -/
theorem kvGet_filter_count (k : String) :
    ∀ store : Store, (store.map Prod.fst).Nodup → (kvGet store k).isSome = true →
      (store.filter (fun b => b.1 == k)).length = 1
  | [], _, h => by simp [kvGet, List.find?] at h
  | e :: rest, hnd, h => by
    rw [List.map_cons, List.nodup_cons] at hnd
    cases he : e.1 == k with
    | true =>
      have he' : e.1 = k := by simpa using he
      rw [List.filter_cons]
      simp only [he, cond_true]
      have hk : k ∉ rest.map Prod.fst := he' ▸ hnd.1
      rw [filter_key_nil_of_not_mem k rest hk]
      rfl
    | false =>
      rw [List.filter_cons]
      simp only [he, cond_false]
      refine kvGet_filter_count k rest hnd.2 ?_
      simpa [kvGet, List.find?_cons, he] using h

/-- A key whose value passes `Option.any truthy` is present. -/
theorem isSome_of_any_truthy {o : Option StoredVal} (h : o.any truthy = true) :
    o.isSome = true := by
  cases o with
  | none => exact absurd h (by simp [Option.any])
  | some v => rfl

/-! ## Claim theorems -/

/-- C10: every email accepted by `isValidEmail` contains no whitespace
character, so the `.trim()` step of normalization is a no-op and the storage
key is exactly the lowercased email. -/
theorem subscribe_accepted_email_has_no_whitespace (e : String)
    (hv : isValidEmail e = true) :
    e.data.all (fun c => !(jsIsSpace c)) = true ∧
    normalizeEmail e = jsToLower e := by
  refine ⟨isValidEmail_all_nonspace hv, ?_⟩
  unfold normalizeEmail
  exact jsTrim_eq_self (jsToLower_all_nonspace (isValidEmail_all_nonspace hv))

/-- Witness for C10 at the accepted email "A@B.com". -/
theorem subscribe_accepted_email_has_no_whitespace_witness :
    "A@B.com".data.all (fun c => !(jsIsSpace c)) = true ∧
    normalizeEmail "A@B.com" = jsToLower "A@B.com" :=
  subscribe_accepted_email_has_no_whitespace "A@B.com" (by decide)

/-- C5: a missing, empty, or pattern-rejected email makes Subscribe answer
the 400 "Invalid email" response and leaves the store exactly as it was. -/
theorem subscribe_invalid_email_rejected (emailField : Option String)
    (freshToken now : String) (store : Store)
    (h : ∀ e, emailField = some e → e = "" ∨ isValidEmail e = false) :
    handleSubscribe (.ok emailField) freshToken now store = (respInvalidEmail, store) ∧
    respInvalidEmail.status = 400 := by
  refine ⟨?_, rfl⟩
  cases emailField with
  | none => rfl
  | some e =>
    simp only [handleSubscribe]
    rw [if_pos]
    rcases h e rfl with he | he
    · rw [he]; simp
    · rw [he]; simp

/-- Witness for C5 at the `@`-free input "nodomain" on the empty store. -/
theorem subscribe_invalid_email_rejected_witness :
    handleSubscribe (.ok (some "nodomain")) "tok" "now" [] = (respInvalidEmail, []) ∧
    respInvalidEmail.status = 400 := by
  apply subscribe_invalid_email_rejected
  intro e he
  injection he with he'
  subst he'
  exact Or.inr (by decide)

/-- C8: with a wrong (or absent) secret, ListSubscribers answers the fixed
401 Unauthorized response, identically for any two store contents. -/
theorem list_unauthorized_constant (keyParam : Option String) (apiSecret : String)
    (store store' : Store) (h : keyParam ≠ some apiSecret) :
    handleListSubscribers keyParam apiSecret store = .ok respUnauthorized ∧
    handleListSubscribers keyParam apiSecret store =
      handleListSubscribers keyParam apiSecret store' ∧
    respUnauthorized.status = 401 := by
  have hb : (keyParam == some apiSecret) = false := by
    simpa using h
  unfold handleListSubscribers
  rw [hb]
  exact ⟨rfl, rfl, rfl⟩

/-- Witness for C8: wrong secret "guess" against secret "s3cret" on an empty
store and on a store holding one subscriber. -/
theorem list_unauthorized_constant_witness :
    handleListSubscribers (some "guess") "s3cret" [] = .ok respUnauthorized ∧
    handleListSubscribers (some "guess") "s3cret" [] =
      handleListSubscribers (some "guess") "s3cret"
        [("a@b.com", .json (mkRecord "tok" "now"))] ∧
    respUnauthorized.status = 401 :=
  list_unauthorized_constant (some "guess") "s3cret" []
    [("a@b.com", .json (mkRecord "tok" "now"))] (by decide)

/-- C2 (amended): two *accepted* emails that agree after lowercasing map to
the same storage key, and subscribing one then the other answers
"Already subscribed" the second time without touching the store.  (Inputs
with surrounding whitespace never get this far: `isValidEmail` rejects
them, see the counterexample.) -/
theorem subscribe_case_insensitive_collision (a b t1 n1 t2 n2 : String)
    (store : Store) (ha : isValidEmail a = true) (hb : isValidEmail b = true)
    (hab : jsToLower a = jsToLower b) :
    normalizeEmail a = normalizeEmail b ∧
    handleSubscribe (.ok (some b)) t2 n2
        ((handleSubscribe (.ok (some a)) t1 n1 store).2) =
      (respAlready, (handleSubscribe (.ok (some a)) t1 n1 store).2) := by
  have hkey : normalizeEmail b = normalizeEmail a := by
    unfold normalizeEmail
    rw [hab]
  refine ⟨hkey.symm, ?_⟩
  apply subscribe_second_already _ _ _ _ hb
  rw [hkey]
  exact subscribe_key_truthy a t1 n1 store ha

/-- Witness for the amended C2 at "A@B.com" / "a@b.com" on the empty store. -/
theorem subscribe_case_insensitive_collision_witness :
    normalizeEmail "A@B.com" = normalizeEmail "a@b.com" ∧
    handleSubscribe (.ok (some "a@b.com")) "t2" "n2"
        ((handleSubscribe (.ok (some "A@B.com")) "t1" "n1" []).2) =
      (respAlready, (handleSubscribe (.ok (some "A@B.com")) "t1" "n1" []).2) :=
  subscribe_case_insensitive_collision "A@B.com" "a@b.com" "t1" "n1" "t2" "n2" []
    (by decide) (by decide) (by decide)

/-- C2 counterexample: " A@B.com " (claimed by the spec to collide with
"a@b.com") is in fact rejected by validation: after subscribing "a@b.com",
subscribing " A@B.com " yields the 400 "Invalid email" response — not the
"Already subscribed" one — so the two inputs do not map to a common key. -/
theorem subscribe_whitespace_variant_rejected_cex :
    (handleSubscribe (.ok (some " A@B.com ")) "t2" "n2"
        ((handleSubscribe (.ok (some "a@b.com")) "t1" "n1" []).2)).1
      = respInvalidEmail ∧
    respInvalidEmail ≠ respAlready := by
  exact ⟨rfl, by decide⟩

/-- C4: subscribing a valid email twice answers "Already subscribed" on the
second call, changes nothing on the second call, and leaves exactly one
binding for the normalized key. -/
theorem subscribe_idempotent (e t1 n1 t2 n2 : String) (store : Store)
    (hv : isValidEmail e = true) (hnd : (store.map Prod.fst).Nodup) :
    handleSubscribe (.ok (some e)) t2 n2
        ((handleSubscribe (.ok (some e)) t1 n1 store).2) =
      (respAlready, (handleSubscribe (.ok (some e)) t1 n1 store).2) ∧
    (((handleSubscribe (.ok (some e)) t1 n1 store).2).filter
        (fun b => b.1 == normalizeEmail e)).length = 1 := by
  constructor
  · apply subscribe_second_already _ _ _ _ hv
    exact subscribe_key_truthy e t1 n1 store hv
  · rw [handleSubscribe_valid e t1 n1 store hv]
    by_cases h : (kvGet store (normalizeEmail e)).any truthy = true
    · rw [if_pos h]
      exact kvGet_filter_count _ store hnd (isSome_of_any_truthy h)
    · rw [if_neg h]
      exact kvPut_filter_count _ _ store hnd

/-- Witness for C4 at "a@b.com" on the empty store. -/
theorem subscribe_idempotent_witness :
    handleSubscribe (.ok (some "a@b.com")) "t2" "n2"
        ((handleSubscribe (.ok (some "a@b.com")) "t1" "n1" []).2) =
      (respAlready, (handleSubscribe (.ok (some "a@b.com")) "t1" "n1" []).2) ∧
    (((handleSubscribe (.ok (some "a@b.com")) "t1" "n1" []).2).filter
        (fun b => b.1 == normalizeEmail "a@b.com")).length = 1 :=
  subscribe_idempotent "a@b.com" "t1" "n1" "t2" "n2" [] (by decide) (by simp)

/-- The unsubscribe handler on a present nonempty token is the scan. -/
theorem handleUnsubscribe_some (tok : String) (store : Store)
    (ht : (tok == "") = false) :
    handleUnsubscribe (some tok) store =
      (unsubScan tok store).map (fun r =>
        (if r.1 then respUnsubscribed else respNotFoundUnsub, r.2)) := by
  simp [handleUnsubscribe, ht]

/-- A scan over scannable, non-matching values returns "not found" and walks
the whole store without altering it. -/
theorem unsubScan_no_match (tok : String) :
    ∀ store : Store, store.all (fun b => scannable b.2) = true →
      store.all (fun b => !(valMatches tok b.2)) = true →
      unsubScan tok store = .ok (false, store)
  | [], _, _ => rfl
  | (k, v) :: rest, hs, hm => by
    rw [List.all_cons, Bool.and_eq_true] at hs hm
    have ih := unsubScan_no_match tok rest hs.2 hm.2
    cases v with
    | empty => simp [unsubScan, ih, Except.map]
    | malformed raw => exact absurd hs.1 (by simp [scannable])
    | json j =>
      have hne : tokenFieldEq j tok = false := by
        have hv := hm.1
        simp only [valMatches, Bool.not_eq_true'] at hv
        exact hv
      cases j with
      | null => exact absurd hs.1 (by simp [scannable])
      | bool b => simp [unsubScan, hne, ih, Except.map]
      | num lit => simp [unsubScan, hne, ih, Except.map]
      | str s => simp [unsubScan, hne, ih, Except.map]
      | arr elems => simp [unsubScan, hne, ih, Except.map]
      | obj fields => simp [unsubScan, hne, ih, Except.map]

/-- A scan hitting its first matching value there deletes exactly that
binding and stops. -/
theorem unsubScan_first_match (tok : String) :
    ∀ (pre : Store) (b : String × StoredVal) (post : Store),
      pre.all (fun x => scannable x.2) = true →
      pre.all (fun x => !(valMatches tok x.2)) = true →
      valMatches tok b.2 = true →
      unsubScan tok (pre ++ b :: post) = .ok (true, pre ++ post)
  | [], b, post, _, _, hb => by
    obtain ⟨k, v⟩ := b
    cases v with
    | empty => exact absurd hb (by simp [valMatches])
    | malformed raw => exact absurd hb (by simp [valMatches])
    | json j =>
      have heq : tokenFieldEq j tok = true := by simpa [valMatches] using hb
      cases j with
      | null => simp [tokenFieldEq, objGet, jsEqStr] at heq
      | bool b' => simp [unsubScan, heq]
      | num lit => simp [unsubScan, heq]
      | str s => simp [unsubScan, heq]
      | arr elems => simp [unsubScan, heq]
      | obj fields => simp [unsubScan, heq]
  | (k, v) :: pre, b, post, hs, hm, hb => by
    rw [List.all_cons, Bool.and_eq_true] at hs hm
    have ih := unsubScan_first_match tok pre b post hs.2 hm.2 hb
    cases v with
    | empty => simp [unsubScan, ih, Except.map]
    | malformed raw => exact absurd hs.1 (by simp [scannable])
    | json j =>
      have hne : tokenFieldEq j tok = false := by
        have hv := hm.1
        simp only [valMatches, Bool.not_eq_true'] at hv
        exact hv
      cases j with
      | null => exact absurd hs.1 (by simp [scannable])
      | bool b' => simp [unsubScan, hne, ih, Except.map]
      | num lit => simp [unsubScan, hne, ih, Except.map]
      | str s => simp [unsubScan, hne, ih, Except.map]
      | arr elems => simp [unsubScan, hne, ih, Except.map]
      | obj fields => simp [unsubScan, hne, ih, Except.map]

/-- C1 (amended): during the scans, only a *falsy* stored value (the empty
string) is skipped; a stored value that `JSON.parse` rejects makes the scan
throw, aborting the whole request, in both Unsubscribe and ListSubscribers. -/
theorem scan_skips_falsy_aborts_on_malformed (tok k raw : String) (rest : Store) :
    unsubScan tok ((k, .empty) :: rest) =
      (unsubScan tok rest).map (fun r => (r.1, (k, StoredVal.empty) :: r.2)) ∧
    unsubScan tok ((k, .malformed raw) :: rest) = .error .parseError ∧
    listScan ((k, .empty) :: rest) = listScan rest ∧
    listScan ((k, .malformed raw) :: rest) = .error .parseError :=
  ⟨rfl, rfl, rfl, rfl⟩

/-- C1 counterexample: a malformed record ahead of a genuine match makes
both scans abort with the parse exception instead of skipping it. -/
theorem scan_malformed_aborts_cex :
    handleUnsubscribe (some "tk1")
        [("p@q.com", .malformed "not-json"), ("r@s.com", .json (mkRecord "tk1" "d1"))]
      = .error .parseError ∧
    handleListSubscribers (some "sec") "sec"
        [("p@q.com", .malformed "not-json"), ("r@s.com", .json (mkRecord "tk1" "d1"))]
      = .error .parseError :=
  ⟨rfl, rfl⟩

/-- C6 (amended): over a store whose values are all scannable and a present
nonempty token, Unsubscribe on a store with no matching record deletes
nothing, and on a store splitting as `pre ++ b :: post` with the first
match at `b` deletes exactly `b` and keeps everything else. -/
theorem unsubscribe_first_match_only (tok : String) (store : Store)
    (hs : store.all (fun b => scannable b.2) = true) (ht : tok ≠ "") :
    (store.all (fun b => !(valMatches tok b.2)) = true →
      handleUnsubscribe (some tok) store = .ok (respNotFoundUnsub, store)) ∧
    (∀ pre b post, store = pre ++ b :: post →
      pre.all (fun x => !(valMatches tok x.2)) = true →
      valMatches tok b.2 = true →
      handleUnsubscribe (some tok) store = .ok (respUnsubscribed, pre ++ post)) := by
  have htb : (tok == "") = false := by simpa using ht
  constructor
  · intro hm
    rw [handleUnsubscribe_some tok store htb, unsubScan_no_match tok store hs hm]
    rfl
  · intro pre b post hsplit hm hb
    rw [handleUnsubscribe_some tok store htb, hsplit]
    rw [hsplit, List.all_append] at hs
    rw [unsubScan_first_match tok pre b post (Bool.and_eq_true _ _ ▸ hs).1 hm hb]
    rfl

/-- Witness for the amended C6: deleting the second of two records by its
token leaves the first untouched. -/
theorem unsubscribe_first_match_only_witness :
    handleUnsubscribe (some "u2")
        [("a@b.com", .json (mkRecord "u1" "s1")), ("c@d.com", .json (mkRecord "u2" "s2"))]
      = .ok (respUnsubscribed, [("a@b.com", .json (mkRecord "u1" "s1"))]) :=
  (unsubscribe_first_match_only "u2"
      [("a@b.com", .json (mkRecord "u1" "s1")), ("c@d.com", .json (mkRecord "u2" "s2"))]
      (by decide) (by decide)).2
    [("a@b.com", .json (mkRecord "u1" "s1"))]
    ("c@d.com", .json (mkRecord "u2" "s2")) [] rfl (by decide) (by decide)

/-- C6 counterexample: with a malformed record ahead of the only matching
one, the code deletes nothing and aborts — it does not delete the first
matching record as the claim states for every store. -/
theorem unsubscribe_malformed_blocks_deletion_cex :
    handleUnsubscribe (some "tt")
        [("x@y.com", .malformed "oops"), ("z@y.com", .json (mkRecord "tt" "s9"))]
      = .error .parseError :=
  rfl

/-- C7 (amended): a present nonempty token matching no record of an
all-scannable store yields the 404 page and leaves the store unchanged. -/
theorem unsubscribe_not_found_unchanged (tok : String) (store : Store)
    (hs : store.all (fun b => scannable b.2) = true) (ht : tok ≠ "")
    (hm : store.all (fun b => !(valMatches tok b.2)) = true) :
    handleUnsubscribe (some tok) store = .ok (respNotFoundUnsub, store) ∧
    respNotFoundUnsub.status = 404 := by
  refine ⟨?_, rfl⟩
  have htb : (tok == "") = false := by simpa using ht
  rw [handleUnsubscribe_some tok store htb, unsubScan_no_match tok store hs hm]
  rfl

/-- Witness for the amended C7 at token "zzz" against one stored record. -/
theorem unsubscribe_not_found_unchanged_witness :
    handleUnsubscribe (some "zzz") [("a@b.com", .json (mkRecord "u1" "s1"))]
      = .ok (respNotFoundUnsub, [("a@b.com", .json (mkRecord "u1" "s1"))]) ∧
    respNotFoundUnsub.status = 404 :=
  unsubscribe_not_found_unchanged "zzz" [("a@b.com", .json (mkRecord "u1" "s1"))]
    (by decide) (by decide) (by decide)

/-- C7 counterexample: a store holding one malformed record (so the token
matches no record) aborts with the parse exception instead of returning
the 404 page. -/
theorem unsubscribe_not_found_malformed_cex :
    handleUnsubscribe (some "zzz") [("m@n.com", .malformed "garbage")]
      = .error .parseError :=
  rfl

/-- Listing a store written by `handleSubscribe` returns its entries
verbatim. -/
theorem listScan_mkStore : ∀ entries : List (String × String × String),
    listScan (mkStore entries) = .ok (entries.map mkEntry)
  | [] => rfl
  | (k, t, ts) :: es => by
    have ih := listScan_mkStore es
    show (listScan (mkStore es)).map
        (fun es2 => (⟨k, objGet (mkRecord t ts) "token",
          objGet (mkRecord t ts) "subscribed_at"⟩ : SubEntry) :: es2) =
      .ok (mkEntry (k, t, ts) :: List.map mkEntry es)
    rw [ih]
    rfl

/-- C9: an authorized ListSubscribers over a store populated by Subscribe
returns, for each stored binding, exactly its storage key as `email` and
the token (and timestamp) stored at creation. -/
theorem list_roundtrip (entries : List (String × String × String))
    (apiSecret : String) :
    handleListSubscribers (some apiSecret) apiSecret (mkStore entries) =
      .ok (respSubscribers (entries.map mkEntry)) ∧
    ∀ x ∈ entries,
      mkEntry x = ⟨x.1, some (.str x.2.1), some (.str x.2.2)⟩ := by
  refine ⟨?_, fun x _ => rfl⟩
  unfold handleListSubscribers
  rw [if_pos (by simp), listScan_mkStore]
  rfl

/-- C3 counterexample: the 401 Unauthorized error response carries no CORS
header at all, while the Subscribe success response does. -/
theorem error_cors_missing_cex :
    respUnauthorized.status = 401 ∧
    ("Access-Control-Allow-Origin", "*") ∈ respSubscribed.headers ∧
    ("Access-Control-Allow-Origin", "*") ∉ respUnauthorized.headers := by
  refine ⟨rfl, by decide, by decide⟩

/-- C3 (amended): only Subscribe's responses — its 400/500 errors and both
success bodies — carry the CORS headers (all three of them); the
Unsubscribe pages (400, 404, 200) and both ListSubscribers responses
(401 and the 200 listing) carry none. -/
theorem error_cors_per_endpoint :
    corsHeaderFields respInvalidEmail = CORS_HEADERS ∧
    corsHeaderFields respServerError = CORS_HEADERS ∧
    corsHeaderFields respSubscribed = CORS_HEADERS ∧
    corsHeaderFields respAlready = CORS_HEADERS ∧
    corsHeaderFields respMissingToken = [] ∧
    corsHeaderFields respNotFoundUnsub = [] ∧
    corsHeaderFields respUnsubscribed = [] ∧
    corsHeaderFields respUnauthorized = [] ∧
    ∀ es, corsHeaderFields (respSubscribers es) = [] := by
  refine ⟨by decide, by decide, by decide, by decide, by decide, by decide,
    by decide, by decide, fun es => rfl⟩
